import Mathlib

/-!
Shallow embedding of the go-zbase-std core: the named cancellable mutex
(src/mutex/mutex.go), the mutex registry (src/mutex/registry.go), and the
optional package's presence wrapper with completeness validation
(src/optional/option.go), monomorphised at T = CancellableMutex, the only
instantiation the registry uses.

Modelling decisions:
* Go pointers are heap indices: the heap is a `List cancellableMutex`, and a
  `*cancellableMutex` is the index of its object.  Pointer identity is index
  equality.
* An interface value of type `CancellableMutex` is a `CMValue`: the nil
  interface, a `*cancellableMutex` pointer, or a value of some other
  implementing type (`otherImpl`), carrying its key and the boolean its own
  `Complete` method would return.
* The `sync.Map` inside the registry is an association list
  `List (String × CMValue)` with Load / Store / Delete.
* The global `atomic.Value` registry holder plus the heap form the sequential
  system state `SysState`; `resetRegistry` swaps in an empty map and leaves
  the heap (all previously allocated lock objects) untouched.
* The lock's buffered channel of capacity one is the boolean `chanFull`
  (true iff the buffer holds the token).  `Lock`'s `select` is resolved
  deterministically in favour of acquisition when the channel has room; the
  source's select is nondeterministic only when both branches are ready at
  once, a case no claim depends on.  A channel operation that would block
  forever in a sequential run is modelled by `Option` (`none` = blocked) or
  by the `LockResult.blocked` outcome.
-/

/-- The `cancellableMutex` struct of src/mutex/mutex.go: a key, a
capacity-one lock channel (modelled by its occupancy `chanFull`), and the
best-effort `locked` flag. -/
structure cancellableMutex where
  key : String
  chanFull : Bool
  locked : Bool
deriving DecidableEq, Repr

/-- `NewCancellableMutex`: fresh lock with the given key, empty channel,
not locked. -/
def NewCancellableMutex (key : String) : cancellableMutex :=
  { key := key, chanFull := false, locked := false }

/-- `IsLocked` accessor. -/
def cancellableMutex.IsLocked (cm : cancellableMutex) : Bool :=
  cm.locked

/-- `GetKey` accessor. -/
def cancellableMutex.GetKey (cm : cancellableMutex) : String :=
  cm.key

/-- The `Complete` method: true iff the key is non-empty. -/
def cancellableMutex.Complete (cm : cancellableMutex) : Bool :=
  cm.key != ""

/-- The reason a Go `context.Context` reports once its done channel fires:
`context.Canceled` or `context.DeadlineExceeded`. -/
inductive CtxErr where
  | canceled
  | deadlineExceeded
deriving DecidableEq, Repr

/-- A cancellation signal: whether its done channel has fired, and the error
`ctx.Err()` reports when it has. -/
structure Context where
  done : Bool
  err : CtxErr
deriving DecidableEq, Repr

/-- Outcome of `Lock`: acquired (nil error), the context's error, or blocked
forever (channel full and the signal never fires — diverges in Go). -/
inductive LockResult where
  | acquired
  | ctxError (e : CtxErr)
  | blocked
deriving DecidableEq, Repr

/-- The `Lock` method: send on the capacity-one channel if it has room
(claiming the slot and setting `locked`), otherwise fall to the context's
done branch if it has fired, otherwise block. -/
def cancellableMutex.Lock (cm : cancellableMutex) (ctx : Context) :
    LockResult × cancellableMutex :=
  if cm.chanFull = false then
    (LockResult.acquired, { cm with chanFull := true, locked := true })
  else if ctx.done then
    (LockResult.ctxError ctx.err, cm)
  else
    (LockResult.blocked, cm)

/-- The `Unlock` method: if `locked`, receive from the channel and clear
`locked`; otherwise do nothing.  The receive blocks forever (`none`) in the
unreachable state `locked = true, chanFull = false`. -/
def cancellableMutex.Unlock (cm : cancellableMutex) : Option cancellableMutex :=
  if cm.locked then
    if cm.chanFull then
      some { cm with chanFull := false, locked := false }
    else
      none
  else
    some cm

/-- A value of the interface type `CancellableMutex`: the nil interface, a
`*cancellableMutex` (heap index), or a value of some other implementing
type, carrying its key and the result of its own `Complete` method. -/
inductive CMValue where
  | nilVal
  | ptr (id : Nat)
  | otherImpl (key : String) (complete : Bool)
deriving DecidableEq, Repr

/-- The errors of the library: `AlreadyRegisteredError` from registry.go and
the `IncompleteTypeError` of the complete package. -/
inductive GoError where
  | alreadyRegisteredError
  | incompleteTypeError
deriving DecidableEq, Repr

/-- `GetKey` on an interface value.  Dereferences the heap for a pointer;
calling it on the nil interface would panic in Go (no claim exercises it),
here it defaults to the zero string. -/
def CMValue.GetKey (heap : List cancellableMutex) : CMValue → String
  | CMValue.nilVal => ""
  | CMValue.ptr id => (heap[id]?.getD (NewCancellableMutex "")).key
  | CMValue.otherImpl k _ => k

/-- Whether the dynamic type of the interface value implements
`complete.Complete`: the nil interface does not (its type assertion fails),
`*cancellableMutex` does, and `otherImpl` values are modelled as
implementing it. -/
def implementsComplete : CMValue → Bool
  | CMValue.nilVal => false
  | CMValue.ptr _ => true
  | CMValue.otherImpl _ _ => true

/-- The completeness pre-check of src/optional/option.go (only reached for
values whose type implements `complete.Complete`): a nil value is
incomplete, otherwise the value's own `Complete` method decides.  For a
pointer this dereferences the heap; a dangling index (impossible in Go)
defaults to the incomplete zero mutex. -/
def isIncomplete (heap : List cancellableMutex) : CMValue → Bool
  | CMValue.nilVal => true
  | CMValue.ptr id => !(heap[id]?.getD (NewCancellableMutex "")).Complete
  | CMValue.otherImpl _ c => !c

/-- The presence wrapper `optional.Option[CancellableMutex]`: the carried
interface value (the zero value `nilVal` when absent) and the `some` flag. -/
structure OptionCM where
  value : CMValue
  some : Bool
deriving DecidableEq, Repr

/-- `optional.None`: the zero-valued empty option. -/
def NoneCM : OptionCM :=
  { value := CMValue.nilVal, some := false }

/-- The `Value` accessor: the carried value and the presence flag. -/
def OptionCM.Value (o : OptionCM) : CMValue × Bool :=
  (o.value, o.some)

/-- `optional.SomeComplete[CancellableMutex]`: if the value's type
implements the completeness contract and the value fails the pre-check,
return the zero option with `IncompleteTypeError`; otherwise wrap the value
as present with nil error. -/
def SomeComplete (heap : List cancellableMutex) (v : CMValue) :
    OptionCM × Option GoError :=
  if implementsComplete v then
    if isIncomplete heap v then
      (NoneCM, some GoError.incompleteTypeError)
    else
      ({ value := v, some := true }, none)
  else
    ({ value := v, some := true }, none)

/-- `sync.Map.Load` on the association-list model. -/
def mapLoad (m : List (String × CMValue)) (k : String) : Option CMValue :=
  (m.find? (fun p => p.1 == k)).map Prod.snd

/-- `sync.Map.Store`: bind `k` to `v`, shadowing any previous binding. -/
def mapStore (m : List (String × CMValue)) (k : String) (v : CMValue) :
    List (String × CMValue) :=
  (k, v) :: m.filter (fun p => p.1 != k)

/-- `sync.Map.Delete`: drop every binding of `k`. -/
def mapDelete (m : List (String × CMValue)) (k : String) :
    List (String × CMValue) :=
  m.filter (fun p => p.1 != k)

/-- Sequential system state: the heap of allocated `cancellableMutex`
objects and the map of the current global registry snapshot. -/
structure SysState where
  heap : List cancellableMutex
  registryMap : List (String × CMValue)
deriving DecidableEq, Repr

/-- The initial state: no allocations, the fresh registry installed by
`newAtomicRegistry`. -/
def initState : SysState :=
  { heap := [], registryMap := [] }

/-- `resetRegistry`: atomically replace the registry with a fresh empty one.
The heap — every lock object already handed out — is untouched. -/
def resetRegistry (s : SysState) : SysState :=
  { s with registryMap := [] }

/-- `HasMutex`: existence-only check of the key in the registry map. -/
def HasMutex (k : String) (s : SysState) : Bool :=
  (mapLoad s.registryMap k).isSome

/-- Evicting an entry: the `mutexMap.Delete(key)` fallthrough of
`GetMutex`. -/
def evict (k : String) (s : SysState) : SysState :=
  { s with registryMap := mapDelete s.registryMap k }

/-- `GetMutex`: load the key; on a hit, type-assert `*cancellableMutex` and
run `SomeComplete`; return the wrapped lock on success, otherwise delete the
entry and return the empty option.  A miss returns the empty option with the
state unchanged. -/
def GetMutex (k : String) (s : SysState) : OptionCM × SysState :=
  match mapLoad s.registryMap k with
  | none => (NoneCM, s)
  | some v =>
    match v with
    | CMValue.ptr id =>
      match SomeComplete s.heap (CMValue.ptr id) with
      | (opt, none) => (opt, s)
      | (_, some _) => (NoneCM, evict k s)
    | _ => (NoneCM, evict k s)

/-- `Register`: fail with `AlreadyRegisteredError` when the lock's key is
already present, otherwise store the lock under its key. -/
def Register (mutex : CMValue) (s : SysState) : Option GoError × SysState :=
  if HasMutex (mutex.GetKey s.heap) s then
    (some GoError.alreadyRegisteredError, s)
  else
    (none, { s with registryMap := mapStore s.registryMap (mutex.GetKey s.heap) mutex })

/-- `GetOrNewCancellableMutex`: consult `GetMutex`; on presence return the
stored interface value.  Otherwise allocate a fresh lock (its pointer is the
next heap index), register it discarding any error, and return it. -/
def GetOrNewCancellableMutex (key : String) (s : SysState) : CMValue × SysState :=
  let r := GetMutex key s
  let v := r.1.Value
  if v.2 then
    (v.1, r.2)
  else
    let mutex := NewCancellableMutex key
    let id := r.2.heap.length
    let s2 : SysState := { r.2 with heap := r.2.heap ++ [mutex] }
    let r2 := Register (CMValue.ptr id) s2
    (CMValue.ptr id, r2.2)

/-! ### Map and heap lemmas -/

/-- Loading the key just stored gives the stored value. -/
theorem mapLoad_mapStore_self (m : List (String × CMValue)) (k : String) (v : CMValue) :
    mapLoad (mapStore m k v) k = some v := by
  simp [mapLoad, mapStore, List.find?]

/-- Loading a deleted key misses. -/
theorem mapLoad_mapDelete_self (m : List (String × CMValue)) (k : String) :
    mapLoad (mapDelete m k) k = none := by
  simp only [mapLoad, mapDelete, Option.map_eq_none']
  rw [List.find?_eq_none]
  intro x hx
  have := (List.mem_filter.mp hx).2
  simp only [bne_iff_ne, ne_eq] at this
  simp [this]

/-- A lookup miss leaves `GetMutex` with the empty option and the state
unchanged. -/
theorem GetMutex_of_absent (s : SysState) (k : String)
    (h : mapLoad s.registryMap k = none) : GetMutex k s = (NoneCM, s) := by
  simp [GetMutex, h]

/-- A hit on a complete pointer entry returns it wrapped, state unchanged. -/
theorem GetMutex_of_complete (s : SysState) (k : String) (id : Nat)
    (cm : cancellableMutex) (hfound : mapLoad s.registryMap k = some (CMValue.ptr id))
    (hheap : s.heap[id]? = some cm) (hcomp : cm.Complete = true) :
    GetMutex k s = ({ value := CMValue.ptr id, some := true }, s) := by
  simp [GetMutex, hfound, SomeComplete, implementsComplete, isIncomplete, hheap, hcomp]

/-- When the stored interface value is a complete pointer, the get-or-create
path returns exactly the stored pointer and leaves the state unchanged. -/
theorem getOrNew_of_complete (s : SysState) (k : String) (id : Nat)
    (cm : cancellableMutex) (hfound : mapLoad s.registryMap k = some (CMValue.ptr id))
    (hheap : s.heap[id]? = some cm) (hcomp : cm.Complete = true) :
    GetOrNewCancellableMutex k s = (CMValue.ptr id, s) := by
  simp [GetOrNewCancellableMutex, GetMutex_of_complete s k id cm hfound hheap hcomp,
    OptionCM.Value]

/-- When `GetMutex` came back empty and its post-state no longer binds `k`,
the get-or-create path allocates the next heap index, registers it under
`k`, and returns it. -/
theorem getOrNew_of_miss (s : SysState) (k : String)
    (h1 : (GetMutex k s).1 = NoneCM)
    (h2 : mapLoad (GetMutex k s).2.registryMap k = none) :
    GetOrNewCancellableMutex k s =
      (CMValue.ptr (GetMutex k s).2.heap.length,
       { heap := (GetMutex k s).2.heap ++ [NewCancellableMutex k],
         registryMap := mapStore (GetMutex k s).2.registryMap k
           (CMValue.ptr (GetMutex k s).2.heap.length) }) := by
  have hkey : CMValue.GetKey ((GetMutex k s).2.heap ++ [NewCancellableMutex k])
      (CMValue.ptr (GetMutex k s).2.heap.length) = k := by
    simp [CMValue.GetKey, List.getElem?_concat_length, NewCancellableMutex]
  simp only [GetOrNewCancellableMutex, h1, NoneCM, OptionCM.Value, Register,
    HasMutex, hkey, h2, Option.isSome_none, Bool.false_eq_true, if_false]

/-- A hit on an incomplete pointer entry evicts it. -/
theorem GetMutex_of_incomplete_ptr (s : SysState) (k : String) (id : Nat)
    (hfound : mapLoad s.registryMap k = some (CMValue.ptr id))
    (hinc : isIncomplete s.heap (CMValue.ptr id) = true) :
    GetMutex k s = (NoneCM, evict k s) := by
  simp [GetMutex, hfound, SomeComplete, implementsComplete, hinc]

/-- A hit on the nil interface fails the type assertion and evicts. -/
theorem GetMutex_of_nil (s : SysState) (k : String)
    (hfound : mapLoad s.registryMap k = some CMValue.nilVal) :
    GetMutex k s = (NoneCM, evict k s) := by
  simp [GetMutex, hfound]

/-- A hit on a foreign implementation fails the type assertion and evicts. -/
theorem GetMutex_of_other (s : SysState) (k : String) (key : String) (c : Bool)
    (hfound : mapLoad s.registryMap k = some (CMValue.otherImpl key c)) :
    GetMutex k s = (NoneCM, evict k s) := by
  simp [GetMutex, hfound]

/-- After a miss (possibly with eviction), get-or-create returns a pointer
whose object is freshly allocated with the requested key, and binds the key
to that pointer. -/
theorem getOrNew_establishes_of_miss (s : SysState) (k : String) (hk : k ≠ "")
    (h1 : (GetMutex k s).1 = NoneCM)
    (h2 : mapLoad (GetMutex k s).2.registryMap k = none) :
    ∃ id cm, (GetOrNewCancellableMutex k s).1 = CMValue.ptr id ∧
      mapLoad (GetOrNewCancellableMutex k s).2.registryMap k = some (CMValue.ptr id) ∧
      (GetOrNewCancellableMutex k s).2.heap[id]? = some cm ∧ cm.Complete = true := by
  refine ⟨(GetMutex k s).2.heap.length, NewCancellableMutex k, ?_⟩
  rw [getOrNew_of_miss s k h1 h2]
  refine ⟨rfl, mapLoad_mapStore_self _ _ _, ?_, ?_⟩
  · simpa using List.getElem?_concat_length (GetMutex k s).2.heap (NewCancellableMutex k)
  · simp [cancellableMutex.Complete, NewCancellableMutex, hk]

/-- After one get-or-create with a non-empty key, the registry binds the key
to the returned pointer, whose object is complete. -/
theorem getOrNew_establishes (s : SysState) (k : String) (hk : k ≠ "") :
    ∃ id cm, (GetOrNewCancellableMutex k s).1 = CMValue.ptr id ∧
      mapLoad (GetOrNewCancellableMutex k s).2.registryMap k = some (CMValue.ptr id) ∧
      (GetOrNewCancellableMutex k s).2.heap[id]? = some cm ∧ cm.Complete = true := by
  rcases h : mapLoad s.registryMap k with _ | v
  · refine getOrNew_establishes_of_miss s k hk ?_ ?_ <;>
      rw [GetMutex_of_absent s k h] <;> simpa using h
  · cases v with
    | nilVal =>
      refine getOrNew_establishes_of_miss s k hk ?_ ?_ <;>
        rw [GetMutex_of_nil s k h]
      exact mapLoad_mapDelete_self _ _
    | otherImpl key c =>
      refine getOrNew_establishes_of_miss s k hk ?_ ?_ <;>
        rw [GetMutex_of_other s k key c h]
      exact mapLoad_mapDelete_self _ _
    | ptr id0 =>
      rcases hinc : isIncomplete s.heap (CMValue.ptr id0) with _ | _
      · rcases hg : s.heap[id0]? with _ | cm0
        · exfalso
          simp [isIncomplete, hg, NewCancellableMutex, cancellableMutex.Complete] at hinc
        · have hcomp : cm0.Complete = true := by
            simpa [isIncomplete, hg] using hinc
          refine ⟨id0, cm0, ?_⟩
          rw [getOrNew_of_complete s k id0 cm0 h hg hcomp]
          exact ⟨rfl, h, hg, hcomp⟩
      · refine getOrNew_establishes_of_miss s k hk ?_ ?_ <;>
          rw [GetMutex_of_incomplete_ptr s k id0 h hinc]
        exact mapLoad_mapDelete_self _ _

/-- C1 (amended): for every non-empty key `k`, two sequential calls of
`GetOrNewCancellableMutex k` return the same interface value (pointer
identity and hence key are equal) and the second call leaves the state
unchanged; the second call surfaces no error (the function returns only the
lock, and the internal registration error is discarded).  For `k = ""` the
identity part fails, see the counterexample. -/
theorem getOrNew_twice_equal_identity_and_key (s : SysState) (k : String)
    (hk : k ≠ "") :
    (GetOrNewCancellableMutex k (GetOrNewCancellableMutex k s).2).1
      = (GetOrNewCancellableMutex k s).1 ∧
    (GetOrNewCancellableMutex k (GetOrNewCancellableMutex k s).2).2
      = (GetOrNewCancellableMutex k s).2 ∧
    CMValue.GetKey (GetOrNewCancellableMutex k (GetOrNewCancellableMutex k s).2).2.heap
        (GetOrNewCancellableMutex k (GetOrNewCancellableMutex k s).2).1
      = CMValue.GetKey (GetOrNewCancellableMutex k s).2.heap
        (GetOrNewCancellableMutex k s).1 := by
  obtain ⟨id, cm, hres, hmap, hheap, hcomp⟩ := getOrNew_establishes s k hk
  have h2 := getOrNew_of_complete _ k id cm hmap hheap hcomp
  rw [h2, hres]
  exact ⟨rfl, rfl, rfl⟩

/-- C1 witness: concrete run with key `"a"` on the initial state. -/
theorem getOrNew_twice_equal_identity_and_key_witness :
    ("a" : String) ≠ "" ∧
    (GetOrNewCancellableMutex "a" (GetOrNewCancellableMutex "a" initState).2).1
      = (GetOrNewCancellableMutex "a" initState).1 :=
  ⟨by decide, (getOrNew_twice_equal_identity_and_key initState "a" (by decide)).1⟩

/-- C1 counterexample: with key `""`, the first call registers an incomplete
lock; the second call's lookup evicts it and allocates a fresh object, so
the two calls return locks of distinct identity. -/
theorem getOrNew_empty_key_distinct_identity :
    (GetOrNewCancellableMutex "" (GetOrNewCancellableMutex "" initState).2).1
      ≠ (GetOrNewCancellableMutex "" initState).1 := by
  decide

/-! ### Lock state-machine facts -/

/-- A fresh lock satisfies the channel invariant `locked → chanFull`. -/
theorem new_locked_imp_chanFull (k : String) :
    (NewCancellableMutex k).locked = true → (NewCancellableMutex k).chanFull = true := by
  intro h
  simp [NewCancellableMutex] at h

/-- `Lock` preserves the channel invariant. -/
theorem lock_preserves_locked_imp_chanFull (cm : cancellableMutex) (ctx : Context)
    (h : cm.locked = true → cm.chanFull = true) :
    ((cm.Lock ctx).2).locked = true → ((cm.Lock ctx).2).chanFull = true := by
  unfold cancellableMutex.Lock
  rcases hc : cm.chanFull with _ | _
  · simp [hc]
  · rw [if_neg (by simp [hc])]
    split <;> exact h

/-- `Unlock` preserves the channel invariant. -/
theorem unlock_preserves_locked_imp_chanFull (cm cm2 : cancellableMutex)
    (h : cm.locked = true → cm.chanFull = true) (h2 : cm.Unlock = some cm2) :
    cm2.locked = true → cm2.chanFull = true := by
  unfold cancellableMutex.Unlock at h2
  rcases hl : cm.locked with _ | _ <;> simp [hl] at h2
  · intro hl2; rw [← h2] at hl2 ⊢; exact h hl2
  · rw [h hl] at h2; simp at h2; rw [← h2]; simp

/-- C2: on a free lock, `Lock` with a live signal acquires the slot
(returns the nil error) and marks the lock held; a second `Lock` on the now
held lock with an already-fired signal returns that signal's own error and
leaves the lock unchanged (the slot is not claimed); after `Unlock`, a
further `Lock` acquires again. -/
theorem lock_ctx_lock_unlock_lock_cycle (cm : cancellableMutex)
    (c1 c2 c3 : Context) (hfree : cm.chanFull = false) (h1 : c1.done = false)
    (h2 : c2.done = true) (h3 : c3.done = false) :
    (cm.Lock c1).1 = LockResult.acquired ∧
    ((cm.Lock c1).2).IsLocked = true ∧
    ((cm.Lock c1).2).chanFull = true ∧
    (((cm.Lock c1).2).Lock c2).1 = LockResult.ctxError c2.err ∧
    (((cm.Lock c1).2).Lock c2).2 = (cm.Lock c1).2 ∧
    ((cm.Lock c1).2).Unlock = some { cm with chanFull := false, locked := false } ∧
    (({ cm with chanFull := false, locked := false } : cancellableMutex).Lock c3).1
      = LockResult.acquired := by
  simp [cancellableMutex.Lock, cancellableMutex.Unlock, cancellableMutex.IsLocked,
    hfree, h2]

/-- C2 witness: a concrete free lock, a live signal, an expired
deadline signal, then a live signal again. -/
theorem lock_ctx_lock_unlock_lock_cycle_witness :
    (NewCancellableMutex "k").chanFull = false ∧
    ((NewCancellableMutex "k").Lock ⟨false, CtxErr.canceled⟩).1 = LockResult.acquired ∧
    ((((NewCancellableMutex "k").Lock ⟨false, CtxErr.canceled⟩).2).Lock
        ⟨true, CtxErr.deadlineExceeded⟩).1
      = LockResult.ctxError CtxErr.deadlineExceeded := by
  have h := lock_ctx_lock_unlock_lock_cycle (NewCancellableMutex "k")
    ⟨false, CtxErr.canceled⟩ ⟨true, CtxErr.deadlineExceeded⟩ ⟨false, CtxErr.canceled⟩
    rfl rfl rfl rfl
  exact ⟨rfl, h.1, h.2.2.2.1⟩

/-- C6: `Unlock` on a lock that is not held returns it unchanged (a no-op,
never an error); on a held lock (which, in any reachable state, also holds
the channel token) it frees the exclusive slot and clears `locked`. -/
theorem unlock_not_held_noop_held_frees (cm : cancellableMutex)
    (hwf : cm.locked = true → cm.chanFull = true) :
    (cm.IsLocked = false → cm.Unlock = some cm) ∧
    (cm.IsLocked = true →
      cm.Unlock = some { cm with chanFull := false, locked := false }) := by
  refine ⟨fun h => ?_, fun h => ?_⟩
  · simp [cancellableMutex.IsLocked] at h
    simp [cancellableMutex.Unlock, h]
  · simp [cancellableMutex.IsLocked] at h
    simp [cancellableMutex.Unlock, h, hwf h]

/-- C6 witness: a concrete held lock is freed by `Unlock`. -/
theorem unlock_not_held_noop_held_frees_witness :
    ({ key := "k", chanFull := true, locked := true } : cancellableMutex).Unlock
      = some { key := "k", chanFull := false, locked := false } := by
  have h := unlock_not_held_noop_held_frees
    { key := "k", chanFull := true, locked := true } (fun _ => rfl)
  exact h.2 rfl

/-- C3: a registry entry holding a pointer to an incomplete lock is evicted
by `GetMutex`, which returns the empty option; no error reaches the caller
(the function's only outputs are the option and the state), and `HasMutex`
is false afterwards, so a later get-or-create can re-create the entry. -/
theorem getMutex_evicts_incomplete_entry (s : SysState) (k : String) (id : Nat)
    (cm : cancellableMutex) (hfound : mapLoad s.registryMap k = some (CMValue.ptr id))
    (hheap : s.heap[id]? = some cm) (hinc : cm.Complete = false) :
    (GetMutex k s).1 = NoneCM ∧
    HasMutex k (GetMutex k s).2 = false ∧
    (GetMutex k s).2.registryMap = mapDelete s.registryMap k := by
  have hi : isIncomplete s.heap (CMValue.ptr id) = true := by
    simp [isIncomplete, hheap, hinc]
  rw [GetMutex_of_incomplete_ptr s k id hfound hi]
  exact ⟨rfl, by simp [HasMutex, evict, mapLoad_mapDelete_self], rfl⟩

/-- C3 witness: an incomplete lock registered under the empty key is evicted
on lookup. -/
theorem getMutex_evicts_incomplete_entry_witness :
    (GetMutex "" (⟨[NewCancellableMutex ""],
      [("", CMValue.ptr 0)]⟩ : SysState)).1 = NoneCM ∧
    HasMutex "" (GetMutex "" (⟨[NewCancellableMutex ""],
      [("", CMValue.ptr 0)]⟩ : SysState)).2 = false := by
  have h := getMutex_evicts_incomplete_entry
    ⟨[NewCancellableMutex ""], [("", CMValue.ptr 0)]⟩
    "" 0 (NewCancellableMutex "") rfl rfl rfl
  exact ⟨h.1, h.2.1⟩

/-- C4: on a fresh registry, registering a lock with key `k` succeeds (nil
error); a second registration of a lock with the same key fails with
`AlreadyRegisteredError`, and the first stored lock is still the one bound
to `k`. -/
theorem register_then_register_same_key (k : String) :
    (Register (CMValue.ptr 0)
      (⟨[NewCancellableMutex k, NewCancellableMutex k], []⟩ : SysState)).1
      = none ∧
    (Register (CMValue.ptr 1) (Register (CMValue.ptr 0)
      (⟨[NewCancellableMutex k, NewCancellableMutex k], []⟩ : SysState)).2).1
      = some GoError.alreadyRegisteredError ∧
    mapLoad (Register (CMValue.ptr 1) (Register (CMValue.ptr 0)
      (⟨[NewCancellableMutex k, NewCancellableMutex k], []⟩ : SysState)).2).2.registryMap
      k = some (CMValue.ptr 0) := by
  simp [Register, HasMutex, CMValue.GetKey, mapLoad, mapStore, NewCancellableMutex,
    List.find?]

/-- C5: a lock built with the empty key is incomplete; `Complete` holds iff
the key is non-empty; and the validated wrap of a pointer to an incomplete
lock yields `IncompleteTypeError` together with the empty option. -/
theorem complete_iff_nonempty_and_someComplete_rejects :
    (NewCancellableMutex "").Complete = false ∧
    (∀ cm : cancellableMutex, cm.Complete = true ↔ cm.key ≠ "") ∧
    (∀ (heap : List cancellableMutex) (id : Nat) (cm : cancellableMutex),
      heap[id]? = some cm → cm.Complete = false →
      SomeComplete heap (CMValue.ptr id)
        = (NoneCM, some GoError.incompleteTypeError)) := by
  refine ⟨rfl, fun cm => ?_, fun heap id cm hh hc => ?_⟩
  · simp [cancellableMutex.Complete]
  · simp [SomeComplete, implementsComplete, isIncomplete, hh, hc]

/-- C5 witness: the concrete empty-keyed lock is rejected by the validated
wrap. -/
theorem complete_iff_nonempty_and_someComplete_rejects_witness :
    (NewCancellableMutex "").Complete = false ∧
    SomeComplete [NewCancellableMutex ""] (CMValue.ptr 0)
      = (NoneCM, some GoError.incompleteTypeError) :=
  ⟨rfl, complete_iff_nonempty_and_someComplete_rejects.2.2
    [NewCancellableMutex ""] 0 (NewCancellableMutex "") rfl rfl⟩

/-- C7: after `resetRegistry`, every previously registered key is absent
from the new snapshot (`HasMutex` false, `GetMutex` empty), while the heap —
hence any lock object obtained before the reset — is unchanged, and that
lock's acquire and release still behave as before: a free lock acquires,
a held lock releases. -/
theorem reset_registry_frame (s : SysState) (k : String) (id : Nat)
    (cm : cancellableMutex) (hk : HasMutex k s = true)
    (hid : s.heap[id]? = some cm) :
    HasMutex k (resetRegistry s) = false ∧
    (GetMutex k (resetRegistry s)).1 = NoneCM ∧
    (resetRegistry s).heap = s.heap ∧
    (resetRegistry s).heap[id]? = some cm ∧
    (cm.chanFull = false → ∀ ctx : Context, (cm.Lock ctx).1 = LockResult.acquired) ∧
    (cm.locked = true → cm.chanFull = true →
      cm.Unlock = some { cm with chanFull := false, locked := false }) := by
  refine ⟨?_, ?_, rfl, hid, fun hf ctx => ?_, fun hl hc => ?_⟩
  · simp [HasMutex, resetRegistry, mapLoad]
  · rw [GetMutex_of_absent (resetRegistry s) k (by simp [resetRegistry, mapLoad])]
  · simp [cancellableMutex.Lock, hf]
  · simp [cancellableMutex.Unlock, hl, hc]

/-- C7 witness: a registered key becomes unreachable after the reset while
the lock object itself persists. -/
theorem reset_registry_frame_witness :
    HasMutex "a" (⟨[NewCancellableMutex "a"],
      [("a", CMValue.ptr 0)]⟩ : SysState) = true ∧
    HasMutex "a" (resetRegistry (⟨[NewCancellableMutex "a"],
      [("a", CMValue.ptr 0)]⟩ : SysState)) = false ∧
    (resetRegistry (⟨[NewCancellableMutex "a"],
      [("a", CMValue.ptr 0)]⟩ : SysState)).heap[0]? = some (NewCancellableMutex "a") := by
  have h := reset_registry_frame ⟨[NewCancellableMutex "a"], [("a", CMValue.ptr 0)]⟩
    "a" 0 (NewCancellableMutex "a") rfl rfl
  exact ⟨rfl, h.1, h.2.2.2.1⟩

/-- C8: `GetMutex` on a key absent from the current snapshot returns the
empty presence wrapper with the state unchanged, and the empty wrapper's
`Value` accessor reports the interface zero value together with `false`. -/
theorem getMutex_absent_returns_none (s : SysState) (k : String)
    (h : mapLoad s.registryMap k = none) :
    GetMutex k s = (NoneCM, s) ∧ NoneCM.Value = (CMValue.nilVal, false) :=
  ⟨GetMutex_of_absent s k h, rfl⟩

/-- C8 witness: lookup of an unregistered key on the initial state. -/
theorem getMutex_absent_returns_none_witness :
    GetMutex "x" initState = (NoneCM, initState) ∧
    NoneCM.Value = (CMValue.nilVal, false) :=
  getMutex_absent_returns_none initState "x" rfl

/-- C9: `Register` accepts a value of a foreign type implementing the
`CancellableMutex` interface (nil error when the key is free), but
`GetMutex` only returns `*cancellableMutex` entries: the foreign entry —
even a complete one — fails the type assertion, is evicted, and the empty
option is returned. -/
theorem register_accepts_foreign_impl_getMutex_evicts (s : SysState)
    (k : String) (c : Bool) (habs : HasMutex k s = false) :
    (Register (CMValue.otherImpl k c) s).1 = none ∧
    HasMutex k (Register (CMValue.otherImpl k c) s).2 = true ∧
    (GetMutex k (Register (CMValue.otherImpl k c) s).2).1 = NoneCM ∧
    HasMutex k (GetMutex k (Register (CMValue.otherImpl k c) s).2).2 = false := by
  have h1 : Register (CMValue.otherImpl k c) s
      = (none, { s with registryMap := mapStore s.registryMap k (CMValue.otherImpl k c) }) := by
    simp [Register, CMValue.GetKey, habs]
  rw [h1]
  have h2 : mapLoad (mapStore s.registryMap k (CMValue.otherImpl k c)) k
      = some (CMValue.otherImpl k c) := mapLoad_mapStore_self _ _ _
  have h3 := GetMutex_of_other
    { s with registryMap := mapStore s.registryMap k (CMValue.otherImpl k c) }
    k k c h2
  rw [h3]
  exact ⟨rfl, by simp [HasMutex, h2], rfl,
    by simp [HasMutex, evict, mapLoad_mapDelete_self]⟩

/-- C9 witness: a complete foreign implementation under key `"b"`. -/
theorem register_accepts_foreign_impl_getMutex_evicts_witness :
    (Register (CMValue.otherImpl "b" true) initState).1 = none ∧
    (GetMutex "b" (Register (CMValue.otherImpl "b" true) initState).2).1
      = NoneCM := by
  have h := register_accepts_foreign_impl_getMutex_evicts initState "b" true rfl
  exact ⟨h.1, h.2.2.1⟩

/-- C10: `Register` applies no completeness check: on a fresh registry an
incomplete lock (key `""`) registers successfully and is stored, `HasMutex`
on `""` then reports true, yet `GetMutex` on `""` evicts the entry and
returns the empty option, after which `HasMutex` is false. -/
theorem register_no_completeness_check :
    (Register (CMValue.ptr 0)
      (⟨[NewCancellableMutex ""], []⟩ : SysState)).1 = none ∧
    HasMutex "" (Register (CMValue.ptr 0)
      (⟨[NewCancellableMutex ""], []⟩ : SysState)).2 = true ∧
    (GetMutex "" (Register (CMValue.ptr 0)
      (⟨[NewCancellableMutex ""], []⟩ : SysState)).2).1 = NoneCM ∧
    HasMutex "" (GetMutex "" (Register (CMValue.ptr 0)
      (⟨[NewCancellableMutex ""], []⟩ : SysState)).2).2 = false := by
  decide
